import Mathlib

/-!
Verification of the configuration subsystem of `peco` (`config.go`).

The Go source is shallowly embedded: Go structs become Lean structures, Go
maps become association lists (`none` models a nil map, `some l` a non-nil
map with entries `l`), `termbox.Attribute` (a packed 16-bit value) becomes
`Nat`, and filesystem / environment access becomes explicit function
arguments. Fallible operations return a value paired with `Option String`
(the Go `error`).
-/

namespace Peco

/-! ## termbox attribute constants

Modelled from the `termbox-go` dependency: colors are consecutive small
values starting at `ColorDefault = 0`, display attributes occupy the bits
from bit 9 upward (`AttrBold = 1 <<< 9`, `AttrUnderline = 1 <<< 10`,
`AttrReverse = 1 <<< 11`). The base color of a packed attribute is its
value modulo `2 ^ 9 = 512`. -/

def ColorDefault : Nat := 0
def ColorBlack : Nat := 1
def ColorRed : Nat := 2
def ColorGreen : Nat := 3
def ColorYellow : Nat := 4
def ColorBlue : Nat := 5
def ColorMagenta : Nat := 6
def ColorCyan : Nat := 7
def ColorWhite : Nat := 8
def AttrBold : Nat := 512
def AttrUnderline : Nat := 1024
def AttrReverse : Nat := 2048

/-- `Style` from `config.go`: a pair of packed termbox attributes. -/
structure Style where
  fg : Nat
  bg : Nat
  deriving DecidableEq, Repr

/-- `StyleSet` from `config.go`: five named style slots. -/
structure StyleSet where
  Basic : Style
  SavedSelection : Style
  Selected : Style
  Query : Style
  Matched : Style
  deriving DecidableEq, Repr

/-- `Config` from `config.go`. Go map fields are modelled as
`Option` of an association list: `none` is a nil (uninitialized) Go map,
`some l` is a non-nil map with entries `l`. -/
structure Config where
  Action : Option (List (String × List String))
  Keymap : Option (List (String × String))
  Matcher : String
  Style : StyleSet
  CustomMatcher : Option (List (String × List String))
  Prompt : String
  deriving DecidableEq, Repr

/-- Modelled from the spec: the constant `IgnoreCaseMatch` is defined in a
repository file outside `config.go`; the spec states the default matcher
name is `"IgnoreCase"`. -/
def IgnoreCaseMatch : String := "IgnoreCase"

/-- `NewStyleSet` from `config.go`. -/
def NewStyleSet : StyleSet :=
  { Basic := { fg := ColorDefault, bg := ColorDefault }
    SavedSelection := { fg := ColorBlack ||| AttrBold, bg := ColorCyan }
    Selected := { fg := ColorDefault ||| AttrUnderline, bg := ColorMagenta }
    Query := { fg := ColorDefault, bg := ColorDefault }
    Matched := { fg := ColorCyan, bg := ColorDefault } }

/-- `NewConfig` from `config.go`. The Go composite literal sets only
`Keymap`, `Matcher`, `Style` and `Prompt`; the remaining fields get their
zero values (`nil` for the maps `Action` and `CustomMatcher`, modelled as
`none`; `""` for strings). -/
def NewConfig : Config :=
  { Action := none
    Keymap := some []
    Matcher := IgnoreCaseMatch
    Style := NewStyleSet
    CustomMatcher := none
    Prompt := "QUERY>" }

/-! ## Style token tables (`config.go` package-level vars) -/

/-- `stringToFg` from `config.go`: foreground color names. -/
def stringToFg : List (String × Nat) :=
  [("default", ColorDefault), ("black", ColorBlack), ("red", ColorRed),
   ("green", ColorGreen), ("yellow", ColorYellow), ("blue", ColorBlue),
   ("magenta", ColorMagenta), ("cyan", ColorCyan), ("white", ColorWhite)]

/-- `stringToBg` from `config.go`: background color names. -/
def stringToBg : List (String × Nat) :=
  [("on_default", ColorDefault), ("on_black", ColorBlack), ("on_red", ColorRed),
   ("on_green", ColorGreen), ("on_yellow", ColorYellow), ("on_blue", ColorBlue),
   ("on_magenta", ColorMagenta), ("on_cyan", ColorCyan), ("on_white", ColorWhite)]

/-- `stringToFgAttr` from `config.go`: foreground emphasis names. -/
def stringToFgAttr : List (String × Nat) :=
  [("bold", AttrBold), ("underline", AttrUnderline), ("blink", AttrReverse)]

/-- `stringToBgAttr` from `config.go`: background emphasis names.
Note the source maps `"blink"` to `termbox.AttrBold`. -/
def stringToBgAttr : List (String × Nat) :=
  [("blink", AttrBold)]

/-- Go map indexing `m[s]` with its `ok` flag, on the association-list model. -/
def mapLookup (m : List (String × Nat)) (s : String) : Option Nat :=
  m.lookup s

/-- The body of the first `for` loop of `stringsToStyle`: a foreground
color-table hit assigns `style.fg`, a background color-table hit assigns
`style.bg`. -/
def colorStep (st : Style) (s : String) : Style :=
  let st1 := match mapLookup stringToFg s with
    | some fg => { st with fg := fg }
    | none => st
  match mapLookup stringToBg s with
    | some bg => { st1 with bg := bg }
    | none => st1

/-- The first `for` loop of `stringsToStyle` (last color hit wins). -/
def styleColorPass (raw : List String) (style : Style) : Style :=
  raw.foldl colorStep style

/-- The body of the second `for` loop of `stringsToStyle`: an
emphasis-table hit is combined with bitwise OR onto the channel. -/
def attrStep (st : Style) (s : String) : Style :=
  let st1 := match mapLookup stringToFgAttr s with
    | some a => { st with fg := st.fg ||| a }
    | none => st
  match mapLookup stringToBgAttr s with
    | some a => { st1 with bg := st1.bg ||| a }
    | none => st1

/-- The second `for` loop of `stringsToStyle`. -/
def styleAttrPass (raw : List String) (style : Style) : Style :=
  raw.foldl attrStep style

/-- `stringsToStyle` from `config.go`: initialize both channels to the
default color, then the color pass, then the emphasis pass. -/
def stringsToStyle (raw : List String) : Style :=
  styleAttrPass raw (styleColorPass raw { fg := ColorDefault, bg := ColorDefault })

/-! ## JSON decoding (`Config.ReadFilename`, `Style.UnmarshalJSON`)

The document is a parsed JSON value. Decoding is modelled from the Go
`encoding/json` semantics used by `config.go`:
  * `json.Decoder.Decode` first reads one syntactically complete JSON
    value; a syntax error is reported before any field is unmarshalled;
  * struct fields are decoded in document order; a type mismatch on a
    plain field records the error and decoding continues (the mismatched
    field keeps its old value);
  * an error returned by a custom `UnmarshalJSON` (here: a `Style` slot)
    aborts decoding immediately;
  * fields absent from the document are untouched; unknown keys are
    ignored.
Simplifications (not exercised by any claim): JSON keys are matched
exactly (Go also falls back to a case-insensitive match), and a map-typed
field decodes from a fully well-shaped object only (Go can partially fill
a map before a per-entry type error). -/

inductive JValue where
  | jnull : JValue
  | jstr : String → JValue
  | jnum : Int → JValue
  | jbool : Bool → JValue
  | jarr : List JValue → JValue
  | jobj : List (String × JValue) → JValue

/-- All-strings view of a JSON array's elements. -/
def jstrElems : List JValue → Option (List String)
  | [] => some []
  | JValue.jstr s :: rest => (jstrElems rest).map (fun l => s :: l)
  | _ :: _ => none

/-- Decode a JSON value as a `[]string`, as `json.Unmarshal(buf, &raw)`
does inside `Style.UnmarshalJSON`. -/
def jvalueToStrings : JValue → Option (List String)
  | JValue.jarr xs => jstrElems xs
  | _ => none

def jstrListEntries : List (String × JValue) → Option (List (String × List String))
  | [] => some []
  | (k, v) :: rest =>
    match jvalueToStrings v with
    | some ss => (jstrListEntries rest).map (fun l => (k, ss) :: l)
    | none => none

/-- Decode a JSON value as a `map[string][]string` value set. -/
def jvalueToStrListMap : JValue → Option (List (String × List String))
  | JValue.jobj fs => jstrListEntries fs
  | _ => none

def jstrEntries : List (String × JValue) → Option (List (String × String))
  | [] => some []
  | (k, JValue.jstr s) :: rest => (jstrEntries rest).map (fun l => (k, s) :: l)
  | _ :: _ => none

/-- Decode a JSON value as a `map[string]string` value set. -/
def jvalueToStrMap : JValue → Option (List (String × String))
  | JValue.jobj fs => jstrEntries fs
  | _ => none

/-- Go JSON decoding into an existing map: entries are added to the map,
overwriting entries with the same key. -/
def assocSet (m : List (String × α)) (k : String) (v : α) : List (String × α) :=
  if m.any (fun p => p.1 = k) then
    m.map (fun p => if p.1 = k then (k, v) else p)
  else
    m ++ [(k, v)]

def assocMerge (m : List (String × α)) (adds : List (String × α)) : List (String × α) :=
  adds.foldl (fun acc kv => assocSet acc kv.1 kv.2) m

/-- `Style.UnmarshalJSON` from `config.go`: unmarshal the raw bytes as a
`[]string` (an error here is returned, leaving the receiver untouched),
then replace the receiver wholesale with `stringsToStyle raw`. The
previous slot value is not an input: resolution always starts from the
all-default base inside `stringsToStyle`. -/
def styleUnmarshalJSON (v : JValue) : Except String Style :=
  match jvalueToStrings v with
  | some raw => Except.ok (stringsToStyle raw)
  | none => Except.error "json: cannot unmarshal value into Go value of type []string"

def typeErr : String := "json: cannot unmarshal value into Go value"

/-- Decode the fields of the `Style` JSON object onto a `StyleSet`, in
document order. Every slot decodes through `Style.UnmarshalJSON`, so a
slot error is a hard abort (`some err`); unknown slot keys are ignored. -/
def decodeStyleFields : List (String × JValue) → StyleSet → StyleSet × Option String
  | [], ss => (ss, none)
  | (k, v) :: rest, ss =>
    if k = "Basic" then
      match styleUnmarshalJSON v with
      | Except.ok st => decodeStyleFields rest { ss with Basic := st }
      | Except.error e => (ss, some e)
    else if k = "SavedSelection" then
      match styleUnmarshalJSON v with
      | Except.ok st => decodeStyleFields rest { ss with SavedSelection := st }
      | Except.error e => (ss, some e)
    else if k = "Selected" then
      match styleUnmarshalJSON v with
      | Except.ok st => decodeStyleFields rest { ss with Selected := st }
      | Except.error e => (ss, some e)
    else if k = "Query" then
      match styleUnmarshalJSON v with
      | Except.ok st => decodeStyleFields rest { ss with Query := st }
      | Except.error e => (ss, some e)
    else if k = "Matched" then
      match styleUnmarshalJSON v with
      | Except.ok st => decodeStyleFields rest { ss with Matched := st }
      | Except.error e => (ss, some e)
    else
      decodeStyleFields rest ss

/-- Decode the fields of the top-level JSON object onto a `Config`, in
document order, carrying the first recorded (soft) type error. A `Style`
slot error aborts immediately and wins over any recorded error, matching
`encoding/json` (hard errors propagate, saved errors are returned only at
the end). -/
def decodeFields : List (String × JValue) → Config → Option String → Config × Option String
  | [], c, e => (c, e)
  | (k, v) :: rest, c, e =>
    if k = "Action" then
      match jvalueToStrListMap v with
      | some m => decodeFields rest { c with Action := some (assocMerge (c.Action.getD []) m) } e
      | none => decodeFields rest c (e <|> some typeErr)
    else if k = "Keymap" then
      match jvalueToStrMap v with
      | some m => decodeFields rest { c with Keymap := some (assocMerge (c.Keymap.getD []) m) } e
      | none => decodeFields rest c (e <|> some typeErr)
    else if k = "Matcher" then
      match v with
      | JValue.jstr s => decodeFields rest { c with Matcher := s } e
      | _ => decodeFields rest c (e <|> some typeErr)
    else if k = "Style" then
      match v with
      | JValue.jobj sfs =>
        match decodeStyleFields sfs c.Style with
        | (ss, some err) => ({ c with Style := ss }, some err)
        | (ss, none) => decodeFields rest { c with Style := ss } e
      | _ => decodeFields rest c (e <|> some typeErr)
    else if k = "CustomMatcher" then
      match jvalueToStrListMap v with
      | some m =>
        decodeFields rest { c with CustomMatcher := some (assocMerge (c.CustomMatcher.getD []) m) } e
      | none => decodeFields rest c (e <|> some typeErr)
    else if k = "Prompt" then
      match v with
      | JValue.jstr s => decodeFields rest { c with Prompt := s } e
      | _ => decodeFields rest c (e <|> some typeErr)
    else
      decodeFields rest c e

/-- `json.NewDecoder(f).Decode(c)` for a syntactically valid document:
a non-object top level is a type error (no mutation); an object is decoded
field by field. -/
def decodeConfig (v : JValue) (c : Config) : Config × Option String :=
  match v with
  | JValue.jobj fs => decodeFields fs c none
  | _ => (c, some typeErr)

/-- A file's content as seen by the decoder: either a syntactically valid
JSON value or malformed text. -/
inductive FileContent where
  | valid : JValue → FileContent
  | invalid : FileContent

/-- `Config.ReadFilename` from `config.go`. The filesystem is the map
`fs` from file name to content (`none`: `os.Open` fails). On an open
error or a syntax error the config is returned untouched; otherwise
`decodeConfig` runs (and may mutate the config even when it records an
error). -/
def ReadFilename (fs : String → Option FileContent) (filename : String) (c : Config) :
    Config × Option String :=
  match fs filename with
  | none => (c, some "open error")
  | some FileContent.invalid => (c, some "invalid character")
  | some (FileContent.valid v) => decodeConfig v c

/-! ## Rcfile location (`LocateRcfile`) -/

/-- `filepath.Join` for clean, separator-free components (the only shape
the claims exercise). -/
def filepathJoin (dir file : String) : String := dir ++ "/" ++ file

/-- `locateRcfileIn` from `config.go`: stat `<dir>/config.json`; return
the path when it exists. `stat` is the filesystem oracle for `os.Stat`
succeeding. -/
def locateRcfileIn (stat : String → Bool) (dir : String) : Option String :=
  let file := filepathJoin dir "config.json"
  if stat file then some file else none

def rcfileNotFound : String := "error: Config file not found"

/-- The first block of `LocateRcfile`: if `XDG_CONFIG_HOME` is set and
non-empty, try `$XDG_CONFIG_HOME/peco`; otherwise (`else if uErr == nil`)
try `<home>/.config/peco`. The second component records the files
stat'ed. -/
def locateRcfileHomeOrXdg (getenv : String → String) (stat : String → Bool)
    (home : Option String) : Option String × List String :=
  let dir := getenv "XDG_CONFIG_HOME"
  if dir ≠ "" then
    (locateRcfileIn stat (filepathJoin dir "peco"),
     [filepathJoin (filepathJoin dir "peco") "config.json"])
  else
    match home with
    | some h =>
      (locateRcfileIn stat (filepathJoin (filepathJoin h ".config") "peco"),
       [filepathJoin (filepathJoin (filepathJoin h ".config") "peco") "config.json"])
    | none => (none, [])

/-- The `XDG_CONFIG_DIRS` loop of `LocateRcfile`: try each entry in order,
returning the first hit, together with the list of files stat'ed. -/
def locateRcfileDirs (stat : String → Bool) : List String → Option String × List String
  | [] => (none, [])
  | dir :: rest =>
    match locateRcfileIn stat (filepathJoin dir "peco") with
    | some file => (some file, [filepathJoin (filepathJoin dir "peco") "config.json"])
    | none =>
      ((locateRcfileDirs stat rest).1,
       filepathJoin (filepathJoin dir "peco") "config.json" :: (locateRcfileDirs stat rest).2)

/-- The second block of `LocateRcfile`: split `XDG_CONFIG_DIRS` on the
list separator (Unix `":"`) when set and non-empty. -/
def locateRcfileXdgDirs (stat : String → Bool) (dirs : String) :
    Option String × List String :=
  if dirs ≠ "" then locateRcfileDirs stat (dirs.splitOn ":") else (none, [])

/-- The last block of `LocateRcfile`: `<home>/.peco`, attempted only when
the home lookup succeeded. -/
def locateRcfileFallback (stat : String → Bool) (home : Option String) :
    Option String × List String :=
  match home with
  | some h =>
    (locateRcfileIn stat (filepathJoin h ".peco"),
     [filepathJoin (filepathJoin h ".peco") "config.json"])
  | none => (none, [])

/-- The early-return chain of `LocateRcfile`: each block's hit returns
immediately (later blocks are not consulted); when every block misses the
function fails with the not-found error. -/
def rcAssemble (p1 p2 p3 : Option String × List String) :
    Except String String × List String :=
  match p1.1 with
  | some file => (Except.ok file, p1.2)
  | none =>
    match p2.1 with
    | some file => (Except.ok file, p1.2 ++ p2.2)
    | none =>
      match p3.1 with
      | some file => (Except.ok file, p1.2 ++ p2.2 ++ p3.2)
      | none => (Except.error rcfileNotFound, p1.2 ++ p2.2 ++ p3.2)

/-- `LocateRcfile` from `config.go`, instrumented with the list of files
stat'ed (in order). `getenv` models `os.Getenv` (returns `""` when
unset), `home` models `homedirFunc()` (`none`: the lookup failed). -/
def locateRcfileTrace (getenv : String → String) (stat : String → Bool)
    (home : Option String) : Except String String × List String :=
  rcAssemble (locateRcfileHomeOrXdg getenv stat home)
    (locateRcfileXdgDirs stat (getenv "XDG_CONFIG_DIRS"))
    (locateRcfileFallback stat home)

/-- `LocateRcfile` proper: the result, forgetting the trace. -/
def LocateRcfile (getenv : String → String) (stat : String → Bool)
    (home : Option String) : Except String String :=
  (locateRcfileTrace getenv stat home).1

/-! ## Specification-side characterization of the search order -/

/-- Step 1/2 candidates: the `XDG_CONFIG_HOME` candidate and the
`<home>/.config/peco` candidate are mutually exclusive — at most one of
them appears, chosen by whether `XDG_CONFIG_HOME` is set and non-empty. -/
def rcfileCandidates1 (getenv : String → String) (home : Option String) : List String :=
  if getenv "XDG_CONFIG_HOME" ≠ "" then
    [filepathJoin (filepathJoin (getenv "XDG_CONFIG_HOME") "peco") "config.json"]
  else
    match home with
    | some h => [filepathJoin (filepathJoin (filepathJoin h ".config") "peco") "config.json"]
    | none => []

/-- Step 3 candidates: the `XDG_CONFIG_DIRS` entries, in list order. -/
def rcfileCandidates2 (getenv : String → String) : List String :=
  if getenv "XDG_CONFIG_DIRS" ≠ "" then
    ((getenv "XDG_CONFIG_DIRS").splitOn ":").map
      (fun d => filepathJoin (filepathJoin d "peco") "config.json")
  else []

/-- Step 4 candidate: the legacy `<home>/.peco` fallback. -/
def rcfileCandidates3 (home : Option String) : List String :=
  match home with
  | some h => [filepathJoin (filepathJoin h ".peco") "config.json"]
  | none => []

/-- The ordered candidate list of the whole search: steps 1/2 (mutually
exclusive), then always the `XDG_CONFIG_DIRS` entries, then always the
`<home>/.peco` fallback. -/
def rcfileCandidates (getenv : String → String) (home : Option String) : List String :=
  rcfileCandidates1 getenv home ++ rcfileCandidates2 getenv ++ rcfileCandidates3 home

/-- First existing file in a candidate list, with the probed files: the
probes are the prefix of the list up to and including the first hit. -/
def firstHit (stat : String → Bool) : List String → Except String String × List String
  | [] => (Except.error rcfileNotFound, [])
  | f :: rest =>
    if stat f then (Except.ok f, [f])
    else ((firstHit stat rest).1, f :: (firstHit stat rest).2)

/-- View of a block's outcome as a search outcome. -/
def optHit : Option String × List String → Except String String × List String
  | (some f, ps) => (Except.ok f, ps)
  | (none, ps) => (Except.error rcfileNotFound, ps)

/-- The base color of a packed termbox attribute: the bits below the
emphasis bits (bit 9 and up), i.e. the value modulo `512`. -/
def baseColor (a : Nat) : Nat := a % 512

/-! ## Theorems -/

/-- C1 counterexample: the claim says `NewConfig` initializes the
`Action` map (and `CustomMatcher`) to an empty, non-nil map. In the
source the composite literal omits both, so they are nil. -/
theorem spec_C1_counterexample :
    NewConfig.Action = none ∧ NewConfig.CustomMatcher = none :=
  ⟨rfl, rfl⟩

/-- C1 (amended): `NewConfig` initializes `Keymap` to an empty map, but
leaves `Action` and `CustomMatcher` nil (unset); `Matcher` is
`"IgnoreCase"`, `Prompt` is `"QUERY>"`, and `Style` holds the five
documented default Style values. -/
theorem spec_C1_amended_holds :
    NewConfig.Keymap = some [] ∧
    NewConfig.Action = none ∧
    NewConfig.CustomMatcher = none ∧
    NewConfig.Matcher = "IgnoreCase" ∧
    NewConfig.Prompt = "QUERY>" ∧
    NewConfig.Style = { Basic := { fg := 0, bg := 0 },
                        SavedSelection := { fg := 513, bg := 7 },
                        Selected := { fg := 1024, bg := 6 },
                        Query := { fg := 0, bg := 0 },
                        Matched := { fg := 7, bg := 0 } } := by
  refine ⟨rfl, rfl, rfl, rfl, rfl, ?_⟩
  decide

/-- C2 counterexample: decoding `{"Matcher": "Regexp", "Prompt": 1}`
fails (the `Prompt` value has the wrong type), yet `ReadFilename`
returns a configuration whose `Matcher` has already been overwritten —
a decode failure can leave the target partially mutated. -/
theorem spec_C2_counterexample :
    (ReadFilename
        (fun _ => some (FileContent.valid
          (JValue.jobj [("Matcher", JValue.jstr "Regexp"), ("Prompt", JValue.jnum 1)])))
        "config.json" NewConfig).2.isSome = true ∧
    (ReadFilename
        (fun _ => some (FileContent.valid
          (JValue.jobj [("Matcher", JValue.jstr "Regexp"), ("Prompt", JValue.jnum 1)])))
        "config.json" NewConfig).1.Matcher = "Regexp" ∧
    NewConfig.Matcher ≠ "Regexp" := by
  refine ⟨rfl, rfl, ?_⟩
  decide

/-- C2 (amended): if `ReadFilename` cannot open the file, or the content
is not a syntactically complete JSON value, the target configuration is
unchanged; a type error during field decoding still reports failure but
may leave fields that were decoded before (or after) the offending one
overwritten. -/
theorem spec_C2_amended_holds (fs : String → Option FileContent) (filename : String)
    (c : Config) :
    (fs filename = none → ReadFilename fs filename c = (c, some "open error")) ∧
    (fs filename = some FileContent.invalid →
      (ReadFilename fs filename c).1 = c ∧ (ReadFilename fs filename c).2.isSome = true) := by
  constructor
  · intro h
    simp [ReadFilename, h]
  · intro h
    simp [ReadFilename, h]

/-- C2 amended witness: the open-error branch at a concrete filesystem. -/
theorem spec_C2_amended_holds_witness :
    ReadFilename (fun _ => none) "config.json" NewConfig = (NewConfig, some "open error") :=
  (spec_C2_amended_holds (fun _ => none) "config.json" NewConfig).1 rfl

/-- C6: decoding `{"Prompt": "> "}` onto a fresh configuration changes
exactly `Prompt` (Matcher stays `"IgnoreCase"`, Style stays the default
set), and decoding the empty document `{}` changes nothing. -/
theorem spec_C6_partial_overwrite :
    decodeConfig (JValue.jobj [("Prompt", JValue.jstr "> ")]) NewConfig =
      ({ NewConfig with Prompt := "> " }, none) ∧
    ReadFilename
        (fun _ => some (FileContent.valid (JValue.jobj [("Prompt", JValue.jstr "> ")])))
        "config.json" NewConfig =
      ({ NewConfig with Prompt := "> " }, none) ∧
    ({ NewConfig with Prompt := "> " } : Config).Matcher = "IgnoreCase" ∧
    ({ NewConfig with Prompt := "> " } : Config).Style = NewStyleSet ∧
    decodeConfig (JValue.jobj []) NewConfig = (NewConfig, none) := by
  refine ⟨rfl, rfl, rfl, rfl, rfl⟩

/-- C10: a `Style` slot present in the document is replaced wholesale by
resolving its token list from the all-default base, whatever the slot
held before: decoding `Selected: []` onto any `StyleSet` resets that slot
to the all-default Style — even though the constructed defaults of
`Selected` and `SavedSelection` are not the all-default Style. -/
theorem spec_C10_slot_replaced (ss : StyleSet) :
    decodeStyleFields [("Selected", JValue.jarr [])] ss =
      ({ ss with Selected := { fg := ColorDefault, bg := ColorDefault } }, none) ∧
    (∀ raw : List String,
      styleUnmarshalJSON (JValue.jarr (raw.map JValue.jstr)) =
        Except.ok (stringsToStyle raw)) ∧
    NewStyleSet.Selected ≠ { fg := ColorDefault, bg := ColorDefault } ∧
    NewStyleSet.SavedSelection ≠ { fg := ColorDefault, bg := ColorDefault } := by
  refine ⟨rfl, ?_, by decide, by decide⟩
  intro raw
  simp only [styleUnmarshalJSON, jvalueToStrings]
  have h : jstrElems (raw.map JValue.jstr) = some raw := by
    induction raw with
    | nil => rfl
    | cons a l ih => simp [jstrElems, ih]
  rw [h]

/-! ### Style-pass helper lemmas -/

theorem lookup_prop {p : Nat → Prop} :
    ∀ (l : List (String × Nat)), (∀ q ∈ l, p q.2) →
      ∀ (s : String) (a : Nat), List.lookup s l = some a → p a := by
  intro l
  induction l with
  | nil => intro _ s a h; simp [List.lookup] at h
  | cons q rest ih =>
    intro hl s a h
    obtain ⟨k, v⟩ := q
    cases hsk : (s == k) with
    | true =>
      simp [List.lookup, hsk] at h
      exact h ▸ hl (k, v) (List.mem_cons_self _ _)
    | false =>
      simp [List.lookup, hsk] at h
      exact ih (fun q hq => hl q (List.mem_cons_of_mem _ hq)) s a h

theorem fg_color_lt (s : String) (a : Nat) (h : mapLookup stringToFg s = some a) :
    a < 512 :=
  @lookup_prop (fun x => x < 512) stringToFg (by decide) s a h

theorem bg_color_lt (s : String) (a : Nat) (h : mapLookup stringToBg s = some a) :
    a < 512 :=
  @lookup_prop (fun x => x < 512) stringToBg (by decide) s a h

theorem fg_attr_highbits (s : String) (a : Nat) (h : mapLookup stringToFgAttr s = some a) :
    a % 512 = 0 :=
  @lookup_prop (fun x => x % 512 = 0) stringToFgAttr (by decide) s a h

theorem bg_attr_highbits (s : String) (a : Nat) (h : mapLookup stringToBgAttr s = some a) :
    a % 512 = 0 :=
  @lookup_prop (fun x => x % 512 = 0) stringToBgAttr (by decide) s a h

/-- OR-ing a value whose low 9 bits are zero does not change the low
9 bits: emphasis never touches the base color. -/
theorem or_highbits_mod (x a : Nat) (h : a % 512 = 0) : (x ||| a) % 512 = x % 512 := by
  have h512 : (512 : Nat) = 2 ^ 9 := by norm_num
  rw [h512] at h ⊢
  apply Nat.eq_of_testBit_eq
  intro i
  rw [Nat.testBit_mod_two_pow, Nat.testBit_mod_two_pow, Nat.testBit_or]
  by_cases hi : i < 9
  · have ha : a.testBit i = false := by
      have h1 := Nat.testBit_mod_two_pow a 9 i
      rw [h, Nat.zero_testBit] at h1
      simpa [hi] using h1.symm
    simp [hi, ha]
  · simp [hi]

theorem attrStep_fg_mod (st : Style) (s : String) :
    (attrStep st s).fg % 512 = st.fg % 512 := by
  unfold attrStep
  cases hf : mapLookup stringToFgAttr s with
  | none => cases hb : mapLookup stringToBgAttr s <;> simp [hf, hb]
  | some a =>
    cases hb : mapLookup stringToBgAttr s <;>
      simp [hf, hb, or_highbits_mod st.fg a (fg_attr_highbits s a hf)]

theorem attrStep_bg_mod (st : Style) (s : String) :
    (attrStep st s).bg % 512 = st.bg % 512 := by
  unfold attrStep
  cases hf : mapLookup stringToFgAttr s with
  | none =>
    cases hb : mapLookup stringToBgAttr s with
    | none => simp [hf, hb]
    | some a => simp [hf, hb, or_highbits_mod st.bg a (bg_attr_highbits s a hb)]
  | some a =>
    cases hb : mapLookup stringToBgAttr s with
    | none => simp [hf, hb]
    | some b => simp [hf, hb, or_highbits_mod st.bg b (bg_attr_highbits s b hb)]

theorem attrPass_fg_bg_mod :
    ∀ (raw : List String) (st : Style),
      (styleAttrPass raw st).fg % 512 = st.fg % 512 ∧
      (styleAttrPass raw st).bg % 512 = st.bg % 512 := by
  intro raw
  induction raw with
  | nil => intro st; exact ⟨rfl, rfl⟩
  | cons s rest ih =>
    intro st
    have h := ih (attrStep st s)
    refine ⟨?_, ?_⟩
    · calc (styleAttrPass (s :: rest) st).fg % 512
          = (styleAttrPass rest (attrStep st s)).fg % 512 := rfl
        _ = (attrStep st s).fg % 512 := h.1
        _ = st.fg % 512 := attrStep_fg_mod st s
    · calc (styleAttrPass (s :: rest) st).bg % 512
          = (styleAttrPass rest (attrStep st s)).bg % 512 := rfl
        _ = (attrStep st s).bg % 512 := h.2
        _ = st.bg % 512 := attrStep_bg_mod st s

theorem colorStep_fg (st : Style) (s : String) :
    (colorStep st s).fg = match mapLookup stringToFg s with
      | some c => c
      | none => st.fg := by
  unfold colorStep
  cases hf : mapLookup stringToFg s <;> cases hb : mapLookup stringToBg s <;> simp [hf, hb]

theorem colorStep_bg (st : Style) (s : String) :
    (colorStep st s).bg = match mapLookup stringToBg s with
      | some c => c
      | none => st.bg := by
  unfold colorStep
  cases hf : mapLookup stringToFg s <;> cases hb : mapLookup stringToBg s <;> simp [hf, hb]

theorem colorPass_fg :
    ∀ (raw : List String) (st : Style),
      (styleColorPass raw st).fg =
        (raw.filterMap (mapLookup stringToFg)).getLastD st.fg := by
  intro raw
  induction raw with
  | nil => intro st; rfl
  | cons s rest ih =>
    intro st
    have hstep : styleColorPass (s :: rest) st = styleColorPass rest (colorStep st s) := rfl
    rw [hstep, ih, List.filterMap_cons]
    cases hf : mapLookup stringToFg s with
    | none => rw [colorStep_fg]; simp [hf]
    | some c => rw [List.getLastD_cons, colorStep_fg]; simp [hf]

theorem colorPass_bg :
    ∀ (raw : List String) (st : Style),
      (styleColorPass raw st).bg =
        (raw.filterMap (mapLookup stringToBg)).getLastD st.bg := by
  intro raw
  induction raw with
  | nil => intro st; rfl
  | cons s rest ih =>
    intro st
    have hstep : styleColorPass (s :: rest) st = styleColorPass rest (colorStep st s) := rfl
    rw [hstep, ih, List.filterMap_cons]
    cases hb : mapLookup stringToBg s with
    | none => rw [colorStep_bg]; simp [hb]
    | some c => rw [List.getLastD_cons, colorStep_bg]; simp [hb]

theorem getLastD_lt :
    ∀ (l : List Nat) (d : Nat), (∀ x ∈ l, x < 512) → d < 512 → l.getLastD d < 512 := by
  intro l
  induction l with
  | nil => intro d _ hd; exact hd
  | cons a rest ih =>
    intro d hl _
    rw [List.getLastD_cons]
    exact ih a (fun x hx => hl x (List.mem_cons_of_mem _ hx)) (hl a (List.mem_cons_self _ _))

theorem colorStep_noop (s : String) (h1 : mapLookup stringToFg s = none)
    (h2 : mapLookup stringToBg s = none) : ∀ st : Style, colorStep st s = st := by
  intro st
  unfold colorStep
  simp [h1, h2]

theorem attrStep_noop (s : String) (h1 : mapLookup stringToFgAttr s = none)
    (h2 : mapLookup stringToBgAttr s = none) : ∀ st : Style, attrStep st s = st := by
  intro st
  unfold attrStep
  simp [h1, h2]

theorem colorPass_noop :
    ∀ (raw : List String),
      (∀ s ∈ raw, mapLookup stringToFg s = none ∧ mapLookup stringToBg s = none) →
      ∀ st : Style, styleColorPass raw st = st := by
  intro raw
  induction raw with
  | nil => intro _ st; rfl
  | cons s rest ih =>
    intro h st
    have hs := h s (List.mem_cons_self _ _)
    have hstep : styleColorPass (s :: rest) st = styleColorPass rest (colorStep st s) := rfl
    rw [hstep, colorStep_noop s hs.1 hs.2]
    exact ih (fun x hx => h x (List.mem_cons_of_mem _ hx)) st

theorem attrPass_noop :
    ∀ (raw : List String),
      (∀ s ∈ raw, mapLookup stringToFgAttr s = none ∧ mapLookup stringToBgAttr s = none) →
      ∀ st : Style, styleAttrPass raw st = st := by
  intro raw
  induction raw with
  | nil => intro _ st; rfl
  | cons s rest ih =>
    intro h st
    have hs := h s (List.mem_cons_self _ _)
    have hstep : styleAttrPass (s :: rest) st = styleAttrPass rest (attrStep st s) := rfl
    rw [hstep, attrStep_noop s hs.1 hs.2]
    exact ih (fun x hx => h x (List.mem_cons_of_mem _ hx)) st

/-- C4: the final base color of each channel is the color named by the
last token of the sequence that hits that channel's color table (the
all-default color when no token hits); in particular
`["red", "blue"]` resolves the foreground base color to blue. -/
theorem spec_C4_last_color_wins (raw : List String) :
    baseColor (stringsToStyle raw).fg =
      (raw.filterMap (mapLookup stringToFg)).getLastD ColorDefault ∧
    baseColor (stringsToStyle raw).bg =
      (raw.filterMap (mapLookup stringToBg)).getLastD ColorDefault ∧
    baseColor (stringsToStyle ["red", "blue"]).fg = ColorBlue := by
  refine ⟨?_, ?_, by decide⟩
  · have h1 : (stringsToStyle raw).fg % 512 =
        (styleColorPass raw { fg := ColorDefault, bg := ColorDefault }).fg % 512 :=
      (attrPass_fg_bg_mod raw _).1
    have h2 := colorPass_fg raw { fg := ColorDefault, bg := ColorDefault }
    have hlt : (raw.filterMap (mapLookup stringToFg)).getLastD ColorDefault < 512 :=
      getLastD_lt _ _
        (fun x hx => by
          obtain ⟨s, _, hs⟩ := List.mem_filterMap.mp hx
          exact fg_color_lt s x hs)
        (by decide)
    unfold baseColor
    rw [h1, h2, Nat.mod_eq_of_lt hlt]
  · have h1 : (stringsToStyle raw).bg % 512 =
        (styleColorPass raw { fg := ColorDefault, bg := ColorDefault }).bg % 512 :=
      (attrPass_fg_bg_mod raw _).2
    have h2 := colorPass_bg raw { fg := ColorDefault, bg := ColorDefault }
    have hlt : (raw.filterMap (mapLookup stringToBg)).getLastD ColorDefault < 512 :=
      getLastD_lt _ _
        (fun x hx => by
          obtain ⟨s, _, hs⟩ := List.mem_filterMap.mp hx
          exact bg_color_lt s x hs)
        (by decide)
    unfold baseColor
    rw [h1, h2, Nat.mod_eq_of_lt hlt]

/-- C5: emphasis is OR-ed on in the second pass and never clears or
overwrites a base color: each channel's base color after both passes is
the base color after the color pass alone; swapping an adjacent
color-only token and emphasis-only token leaves the result unchanged;
and `["red", "bold"]` gives red combined with bold, not plain bold. -/
theorem spec_C5_emphasis_additive (raw xs ys : List String) (tc te : String)
    (h1 : mapLookup stringToFgAttr tc = none) (h2 : mapLookup stringToBgAttr tc = none)
    (h3 : mapLookup stringToFg te = none) (h4 : mapLookup stringToBg te = none) :
    baseColor (stringsToStyle raw).fg =
      baseColor (styleColorPass raw { fg := ColorDefault, bg := ColorDefault }).fg ∧
    baseColor (stringsToStyle raw).bg =
      baseColor (styleColorPass raw { fg := ColorDefault, bg := ColorDefault }).bg ∧
    stringsToStyle (xs ++ tc :: te :: ys) = stringsToStyle (xs ++ te :: tc :: ys) ∧
    stringsToStyle ["red", "bold"] = { fg := ColorRed ||| AttrBold, bg := ColorDefault } := by
  have hc : ∀ st : Style,
      styleColorPass (xs ++ tc :: te :: ys) st = styleColorPass (xs ++ te :: tc :: ys) st := by
    intro st
    simp only [styleColorPass, List.foldl_append, List.foldl_cons]
    have hte := colorStep_noop te h3 h4
    rw [hte, hte]
  have ha : ∀ st : Style,
      styleAttrPass (xs ++ tc :: te :: ys) st = styleAttrPass (xs ++ te :: tc :: ys) st := by
    intro st
    simp only [styleAttrPass, List.foldl_append, List.foldl_cons]
    have htc := attrStep_noop tc h1 h2
    rw [htc, htc]
  refine ⟨(attrPass_fg_bg_mod raw _).1, (attrPass_fg_bg_mod raw _).2, ?_, by decide⟩
  unfold stringsToStyle
  rw [hc, ha]

/-- C5 witness: at `xs = ys = raw = []`, `tc = "red"`, `te = "bold"`. -/
theorem spec_C5_emphasis_additive_witness :
    baseColor (stringsToStyle []).fg =
      baseColor (styleColorPass [] { fg := ColorDefault, bg := ColorDefault }).fg ∧
    baseColor (stringsToStyle []).bg =
      baseColor (styleColorPass [] { fg := ColorDefault, bg := ColorDefault }).bg ∧
    stringsToStyle (([] : List String) ++ "red" :: "bold" :: []) =
      stringsToStyle (([] : List String) ++ "bold" :: "red" :: []) ∧
    stringsToStyle ["red", "bold"] = { fg := ColorRed ||| AttrBold, bg := ColorDefault } :=
  spec_C5_emphasis_additive [] [] [] "red" "bold"
    (by decide) (by decide) (by decide) (by decide)

/-- C7: a sequence in which no token is recognized by any of the four
tables resolves, without error, to the all-default Style. -/
theorem spec_C7_unrecognized_ignored (raw : List String)
    (h : ∀ s ∈ raw,
      mapLookup stringToFg s = none ∧ mapLookup stringToBg s = none ∧
      mapLookup stringToFgAttr s = none ∧ mapLookup stringToBgAttr s = none) :
    stringsToStyle raw = { fg := ColorDefault, bg := ColorDefault } := by
  unfold stringsToStyle
  rw [colorPass_noop raw (fun s hs => ⟨(h s hs).1, (h s hs).2.1⟩),
      attrPass_noop raw (fun s hs => ⟨(h s hs).2.2.1, (h s hs).2.2.2⟩)]

/-- C7 witness: two unrecognized tokens. -/
theorem spec_C7_unrecognized_ignored_witness :
    stringsToStyle ["foo", "BOLD"] = { fg := ColorDefault, bg := ColorDefault } :=
  spec_C7_unrecognized_ignored ["foo", "BOLD"] (by decide)

/-- The background channel keeps bit 9 once set, across the rest of the
emphasis pass. -/
theorem attrStep_bg_bit (st : Style) (s : String) (hb : Nat.testBit st.bg 9 = true) :
    Nat.testBit (attrStep st s).bg 9 = true := by
  unfold attrStep
  cases hf : mapLookup stringToFgAttr s <;>
    cases hba : mapLookup stringToBgAttr s <;>
      simp [hf, hba, Nat.testBit_or, hb]

theorem attrPass_bg_bit :
    ∀ (raw : List String) (st : Style), Nat.testBit st.bg 9 = true →
      Nat.testBit (styleAttrPass raw st).bg 9 = true := by
  intro raw
  induction raw with
  | nil => intro st h; exact h
  | cons s rest ih =>
    intro st h
    exact ih (attrStep st s) (attrStep_bg_bit st s h)

theorem attrPass_blink :
    ∀ (raw : List String) (st : Style), "blink" ∈ raw →
      Nat.testBit (styleAttrPass raw st).bg 9 = true := by
  intro raw
  induction raw with
  | nil => intro _ h; cases h
  | cons s rest ih =>
    intro st h
    rcases List.mem_cons.mp h with he | hm
    · subst he
      have hstep : styleAttrPass ("blink" :: rest) st = styleAttrPass rest (attrStep st "blink") :=
        rfl
      rw [hstep]
      apply attrPass_bg_bit
      have hbg : (attrStep st "blink").bg = st.bg ||| 512 := by
        unfold attrStep
        rfl
      rw [hbg]
      have h9 : (512 : Nat) = 2 ^ 9 := by norm_num
      rw [Nat.testBit_or, h9, Nat.testBit_two_pow_self, Bool.or_true]
    · exact ih (attrStep st s) hm

/-- C9: the background-emphasis table maps `"blink"` to the bold
attribute value (`AttrBold = 2 ^ 9`), so any sequence containing
`"blink"` has the bold bit (bit 9) OR-ed into the background. -/
theorem spec_C9_blink_is_bold (raw : List String) (h : "blink" ∈ raw) :
    mapLookup stringToBgAttr "blink" = some AttrBold ∧
    AttrBold = 2 ^ 9 ∧
    Nat.testBit (stringsToStyle raw).bg 9 = true :=
  ⟨rfl, by decide, attrPass_blink raw _ h⟩

/-- C9 witness: the sequence `["blink"]`. -/
theorem spec_C9_blink_is_bold_witness :
    mapLookup stringToBgAttr "blink" = some AttrBold ∧
    AttrBold = 2 ^ 9 ∧
    Nat.testBit (stringsToStyle ["blink"]).bg 9 = true :=
  spec_C9_blink_is_bold ["blink"] (by decide)

/-! ### Locator helper lemmas -/

theorem firstHit_append (stat : String → Bool) :
    ∀ l1 l2 : List String,
      firstHit stat (l1 ++ l2) =
        match firstHit stat l1 with
        | (Except.ok f, ps) => (Except.ok f, ps)
        | (Except.error _, ps) => ((firstHit stat l2).1, ps ++ (firstHit stat l2).2) := by
  intro l1 l2
  induction l1 with
  | nil => simp [firstHit]
  | cons f rest ih =>
    by_cases hst : stat f
    · simp [firstHit, hst]
    · have hst' : stat f = false := by rwa [Bool.not_eq_true] at hst
      rw [List.cons_append]
      rw [show firstHit stat (f :: (rest ++ l2)) =
            ((firstHit stat (rest ++ l2)).1, f :: (firstHit stat (rest ++ l2)).2) from by
          simp [firstHit, hst']]
      rw [show firstHit stat (f :: rest) =
            ((firstHit stat rest).1, f :: (firstHit stat rest).2) from by
          simp [firstHit, hst']]
      rw [ih]
      rcases hr : firstHit stat rest with ⟨r, ps⟩
      cases r <;> simp

theorem phase1_optHit (getenv : String → String) (stat : String → Bool)
    (home : Option String) :
    optHit (locateRcfileHomeOrXdg getenv stat home) =
      firstHit stat (rcfileCandidates1 getenv home) := by
  unfold locateRcfileHomeOrXdg rcfileCandidates1
  by_cases hd : getenv "XDG_CONFIG_HOME" = ""
  · cases home with
    | none => simp [hd, optHit, firstHit]
    | some h =>
      by_cases hst : stat (filepathJoin (filepathJoin (filepathJoin h ".config") "peco")
          "config.json") <;>
        simp [hd, locateRcfileIn, firstHit, optHit, hst]
  · by_cases hst : stat (filepathJoin (filepathJoin (getenv "XDG_CONFIG_HOME") "peco")
        "config.json") <;>
      simp [hd, locateRcfileIn, firstHit, optHit, hst]

theorem dirs_optHit (stat : String → Bool) :
    ∀ l : List String,
      optHit (locateRcfileDirs stat l) =
        firstHit stat
          (l.map (fun d => filepathJoin (filepathJoin d "peco") "config.json")) := by
  intro l
  induction l with
  | nil => simp [locateRcfileDirs, optHit, firstHit]
  | cons d rest ih =>
    by_cases hst : stat (filepathJoin (filepathJoin d "peco") "config.json")
    · simp [locateRcfileDirs, locateRcfileIn, optHit, firstHit, hst]
    · have hst' : stat (filepathJoin (filepathJoin d "peco") "config.json") = false := by
        rwa [Bool.not_eq_true] at hst
      simp only [locateRcfileDirs, locateRcfileIn, hst', List.map_cons]
      rw [show (if false = true then
            some (filepathJoin (filepathJoin d "peco") "config.json") else none) =
          (none : Option String) from rfl]
      rw [show firstHit stat ((filepathJoin (filepathJoin d "peco") "config.json") ::
            List.map (fun d => filepathJoin (filepathJoin d "peco") "config.json") rest) =
          ((firstHit stat (List.map (fun d =>
              filepathJoin (filepathJoin d "peco") "config.json") rest)).1,
            (filepathJoin (filepathJoin d "peco") "config.json") ::
            (firstHit stat (List.map (fun d =>
              filepathJoin (filepathJoin d "peco") "config.json") rest)).2) from by
          simp [firstHit, hst']]
      rw [← ih]
      rcases hr : locateRcfileDirs stat rest with ⟨r, ps⟩
      cases r <;> simp [optHit]

theorem phase2_optHit (getenv : String → String) (stat : String → Bool) :
    optHit (locateRcfileXdgDirs stat (getenv "XDG_CONFIG_DIRS")) =
      firstHit stat (rcfileCandidates2 getenv) := by
  unfold locateRcfileXdgDirs rcfileCandidates2
  by_cases hd : getenv "XDG_CONFIG_DIRS" = ""
  · simp [hd, optHit, firstHit]
  · simp only [hd, ne_eq, not_false_eq_true, if_pos]
    exact dirs_optHit stat _

theorem phase3_optHit (stat : String → Bool) (home : Option String) :
    optHit (locateRcfileFallback stat home) =
      firstHit stat (rcfileCandidates3 home) := by
  unfold locateRcfileFallback rcfileCandidates3
  cases home with
  | none => simp [optHit, firstHit]
  | some h =>
    by_cases hst : stat (filepathJoin (filepathJoin h ".peco") "config.json") <;>
      simp [locateRcfileIn, firstHit, optHit, hst]

theorem rcAssemble_firstHit (stat : String → Bool)
    (p1 p2 p3 : Option String × List String) (s1 s2 s3 : List String)
    (h1 : optHit p1 = firstHit stat s1) (h2 : optHit p2 = firstHit stat s2)
    (h3 : optHit p3 = firstHit stat s3) :
    rcAssemble p1 p2 p3 = firstHit stat (s1 ++ s2 ++ s3) := by
  rw [firstHit_append stat (s1 ++ s2) s3, firstHit_append stat s1 s2, ← h1, ← h2, ← h3]
  rcases p1 with ⟨o1, ps1⟩
  rcases p2 with ⟨o2, ps2⟩
  rcases p3 with ⟨o3, ps3⟩
  cases o1 <;> cases o2 <;> cases o3 <;>
    simp [rcAssemble, optHit, List.append_assoc]

/-- `LocateRcfile` is exactly the first-existing-file search over the
documented candidate order, and its probes are exactly the candidates up
to and including the hit. -/
theorem locateRcfileTrace_eq (getenv : String → String) (stat : String → Bool)
    (home : Option String) :
    locateRcfileTrace getenv stat home = firstHit stat (rcfileCandidates getenv home) :=
  rcAssemble_firstHit stat _ _ _ _ _ _
    (phase1_optHit getenv stat home)
    (phase2_optHit getenv stat)
    (phase3_optHit stat home)

theorem firstHit_all_miss (stat : String → Bool) :
    ∀ l : List String, (∀ f ∈ l, stat f = false) →
      firstHit stat l = (Except.error rcfileNotFound, l) := by
  intro l
  induction l with
  | nil => intro _; rfl
  | cons f rest ih =>
    intro h
    have hf : stat f = false := h f (List.mem_cons_self _ _)
    simp only [firstHit, hf, Bool.false_eq_true, if_neg, not_false_eq_true,
      ih (fun x hx => h x (List.mem_cons_of_mem _ hx))]

/-- C3: the search follows the documented deterministic order —
`LocateRcfile` equals the first-existing-file search over
`rcfileCandidates`, whose shape makes the step-1/step-2 exclusivity and
the unconditional steps 3–4 explicit; and concretely, with
`XDG_CONFIG_HOME = "/tmp/a"` and an existing `/tmp/a/peco/config.json`,
it returns that path having stat'ed only that file (no
`XDG_CONFIG_DIRS` entry and no home fallback is consulted). -/
theorem spec_C3_search_order (getenv : String → String) (stat : String → Bool)
    (home : Option String)
    (h1 : getenv "XDG_CONFIG_HOME" = "/tmp/a")
    (h2 : stat "/tmp/a/peco/config.json" = true) :
    (∀ (g : String → String) (s : String → Bool) (hm : Option String),
      locateRcfileTrace g s hm = firstHit s (rcfileCandidates g hm)) ∧
    locateRcfileTrace getenv stat home =
      (Except.ok "/tmp/a/peco/config.json", ["/tmp/a/peco/config.json"]) := by
  refine ⟨locateRcfileTrace_eq, ?_⟩
  have hj : filepathJoin (filepathJoin "/tmp/a" "peco") "config.json" =
      "/tmp/a/peco/config.json" := rfl
  unfold locateRcfileTrace rcAssemble locateRcfileHomeOrXdg locateRcfileIn
  simp [h1, hj, h2]

/-- C3 witness: a concrete environment, filesystem and home directory. -/
theorem spec_C3_search_order_witness :
    (∀ (g : String → String) (s : String → Bool) (hm : Option String),
      locateRcfileTrace g s hm = firstHit s (rcfileCandidates g hm)) ∧
    locateRcfileTrace (fun v => if v = "XDG_CONFIG_HOME" then "/tmp/a" else "")
        (fun f => f == "/tmp/a/peco/config.json") (some "/home/user") =
      (Except.ok "/tmp/a/peco/config.json", ["/tmp/a/peco/config.json"]) :=
  spec_C3_search_order (fun v => if v = "XDG_CONFIG_HOME" then "/tmp/a" else "")
    (fun f => f == "/tmp/a/peco/config.json") (some "/home/user") (by decide) (by decide)

/-- C8: when no candidate location holds an existing `config.json`,
`LocateRcfile` fails with the not-found error and returns no path
(having probed every candidate). -/
theorem spec_C8_not_found (getenv : String → String) (stat : String → Bool)
    (home : Option String)
    (h : ∀ f ∈ rcfileCandidates getenv home, stat f = false) :
    LocateRcfile getenv stat home = Except.error rcfileNotFound ∧
    locateRcfileTrace getenv stat home =
      (Except.error rcfileNotFound, rcfileCandidates getenv home) := by
  have he := locateRcfileTrace_eq getenv stat home
  rw [firstHit_all_miss stat _ h] at he
  exact ⟨by rw [LocateRcfile, he], he⟩

/-- C8 witness: no environment variables set, a resolvable home, and an
empty filesystem. -/
theorem spec_C8_not_found_witness :
    LocateRcfile (fun _ => "") (fun _ => false) (some "/home/user") =
      Except.error rcfileNotFound ∧
    locateRcfileTrace (fun _ => "") (fun _ => false) (some "/home/user") =
      (Except.error rcfileNotFound,
       rcfileCandidates (fun _ => "") (some "/home/user")) :=
  spec_C8_not_found (fun _ => "") (fun _ => false) (some "/home/user") (fun _ _ => rfl)

end Peco
